import Mathlib

/-!
Verification of the coroutine-based lazy sequence generator of
src/Advanced/coroutines.cpp (the Generator of T abstraction together with the
three demonstration producers: fibonacci, range and inorder tree traversal).

The C++ coroutine is shallowly embedded as an explicit state machine, exactly
the transformation described in the design notes of the specification: each
producer body becomes a step function over its saved locals, and the coroutine
frame becomes a record holding those locals together with the promise fields
(value, finished) and the final-suspend flag that models handle.done().

C++ operations whose preconditions can be violated (resuming a coroutine that
is suspended at its final suspend point, or calling done, resume or promise on
a null coroutine handle) are modelled as returning the explicit outcome ub,
for undefined behavior; an unhandled exception in the producer body reaches
promise_type.unhandled_exception, which calls std.terminate, modelled by the
outcome aborted. Machine int is modelled as the unbounded Int: every concrete
execution examined below stays far inside the representable range.
-/

/-- Outcome of one C++ operation: a defined result, undefined behavior (a
precondition violation of the coroutine API), or whole-program abort via
std.terminate. -/
inductive COut (α : Type) where
  | ok (a : α)
  | ub
  | aborted
deriving DecidableEq, Repr

/-- Sequencing of C++ operations: undefined behavior and aborts propagate. -/
def bindCOut {α β : Type} : COut α → (α → COut β) → COut β
  | .ok a, k => k a
  | .ub, _ => .ub
  | .aborted, _ => .aborted

/-- Result of running a producer body from one suspension point to the next:
it reaches a co_yield, falls off the end (modelling return_void), or throws. -/
inductive StepOut (σ T : Type) where
  | yielded (v : T) (s : σ)
  | completed
  | raised
deriving DecidableEq, Repr

/-- A producer body compiled to a state machine: the locals at the initial
suspension point and the transition run by each resume. -/
structure Producer (σ T : Type) where
  init : σ
  step : σ → StepOut σ T

/-- The coroutine frame: the saved locals of the producer plus the promise
fields of Generator.promise_type (value, finished) and the flag recording that
the coroutine is suspended at its final suspend point, which is what
handle.done() reports. The promise field T value is default-initialized, so
it is modelled as an Option, none meaning an indeterminate value that was
never assigned by yield_value. -/
structure Frame (σ T : Type) where
  locals : σ
  value : Option T
  finished : Bool
  atFinal : Bool
deriving DecidableEq, Repr

/-- Invoking the producer routine: the frame is allocated and, because
promise_type.initial_suspend returns suspend_always, the coroutine suspends
before any body code runs: locals are at their initial suspension state, no
value has been assigned, nothing is finished. -/
def initialFrame {σ T : Type} (p : Producer σ T) : Frame σ T :=
  ⟨p.init, none, false, false⟩

/-- handle.resume(): defined only on a coroutine that is suspended and not at
its final suspend point. It runs the body to the next co_yield (yield_value
stores the value and suspends), to return_void (finished is set and
final_suspend suspends, so done() becomes true), or to an unhandled exception
(std.terminate). -/
def resumeFrame {σ T : Type} (p : Producer σ T) (f : Frame σ T) : COut (Frame σ T) :=
  if f.atFinal then .ub
  else
    match p.step f.locals with
    | .yielded v s => .ok ⟨s, some v, f.finished, false⟩
    | .completed => .ok ⟨f.locals, f.value, true, true⟩
    | .raised => .aborted

/-- The Generator handle: its coro member is either a null handle or owns a
frame. -/
structure Generator (σ T : Type) where
  coro : Option (Frame σ T)
deriving DecidableEq, Repr

/-- Calling a coroutine producer function builds the Generator owning the
freshly created, initially suspended frame. -/
def makeGenerator {σ T : Type} (p : Producer σ T) : Generator σ T :=
  ⟨some (initialFrame p)⟩

/-- The destructor runs coro.destroy() only when the handle is non-null; the
model counts how many frame destructions the destructor performs. -/
def destroyCount {σ T : Type} (g : Generator σ T) : Nat :=
  if g.coro.isSome then 1 else 0

/-- Move construction: the new Generator takes the coro handle and the source
is left with a null handle. The pair is (constructed, source afterwards). -/
def moveCtor {σ T : Type} (g : Generator σ T) : Generator σ T × Generator σ T :=
  (⟨g.coro⟩, ⟨none⟩)

/-- Move assignment between two distinct objects (the this != other guard
passed): the destination destroys its own frame when it owns one, then takes
the source handle; the source is left null. The result is (destination
afterwards, source afterwards, number of frame destructions performed). -/
def moveAssign {σ T : Type} (dst src : Generator σ T) :
    Generator σ T × Generator σ T × Nat :=
  (⟨src.coro⟩, ⟨none⟩, if dst.coro.isSome then 1 else 0)

/-- Self move assignment: the this != other guard fails, the body is skipped,
the object is unchanged and no destruction happens. -/
def moveAssignSelf {σ T : Type} (g : Generator σ T) : Generator σ T × Nat :=
  (g, 0)

/-- The Iterator of the adapter holds a coroutine handle, possibly null
(Iterator constructed from nullptr). -/
abbrev Iterator (σ T : Type) := Option (Frame σ T)

/-- Iterator.operator!= against the default sentinel returns !handle.done();
calling done() on a null coroutine handle is undefined behavior. -/
def iterNe {σ T : Type} (it : Iterator σ T) : COut Bool :=
  match it with
  | some f => .ok (!f.atFinal)
  | none => .ub

/-- Iterator.operator++ calls handle.resume() with no guard of its own:
resuming through a null handle is undefined behavior, and resuming a frame
suspended at its final suspend point is undefined behavior inside
resumeFrame. -/
def iterInc {σ T : Type} (p : Producer σ T) (it : Iterator σ T) : COut (Iterator σ T) :=
  match it with
  | some f => bindCOut (resumeFrame p f) (fun f2 => .ok (some f2))
  | none => .ub

/-- Iterator.operator* returns handle.promise().value, a plain read of the
stored promise field with no completion check; calling promise() on a null
handle is undefined behavior. -/
def iterDeref {σ T : Type} (it : Iterator σ T) : COut (Option T) :=
  match it with
  | some f => .ok f.value
  | none => .ub

/-- Generator.begin(): when the handle is non-null it performs the first
resume, then tests coro.done() to hand out either a live Iterator over the
frame or an Iterator holding a null handle. When the Generator handle itself
is null, the resume is skipped by the if (coro) guard but coro.done() is then
called on a null handle, which is undefined behavior. -/
def beginGen {σ T : Type} (p : Producer σ T) (g : Generator σ T) : COut (Iterator σ T) :=
  match g.coro with
  | some f =>
      bindCOut (resumeFrame p f) (fun f2 =>
        if !f2.atFinal then .ok (some f2) else .ok none)
  | none => .ub

/-- One pass of the range-for loop the test harness runs over a Generator:
while the iterator differs from the sentinel, dereference, collect the value
and advance. Fuel bounds the number of iterations so the driver is total on
infinite producers; the Bool of the result records whether the loop exited
because the generator reported completion (true) or because fuel ran out
(false). Dereferencing a promise value that was never assigned reads an
indeterminate int, which is undefined behavior. -/
def loopCollect {σ T : Type} (p : Producer σ T) :
    Nat → Iterator σ T → List T → COut (List T × Bool)
  | 0, _, acc => .ok (acc.reverse, false)
  | fuel + 1, it, acc =>
      bindCOut (iterNe it) (fun ne =>
        if ne then
          bindCOut (iterDeref it) (fun v =>
            match v with
            | some w =>
                bindCOut (iterInc p it) (fun it2 =>
                  loopCollect p fuel it2 (w :: acc))
            | none => .ub)
        else .ok (acc.reverse, true))

/-- Running a producer exactly as the test harness does: build the Generator,
call begin, then drive the loop with the given fuel. -/
def runGen {σ T : Type} (p : Producer σ T) (fuel : Nat) : COut (List T × Bool) :=
  bindCOut (beginGen p (makeGenerator p)) (fun it => loopCollect p fuel it [])

/-- The frame after n resumes of a freshly created generator. -/
def frameN {σ T : Type} (p : Producer σ T) : Nat → COut (Frame σ T)
  | 0 => .ok (initialFrame p)
  | n + 1 => bindCOut (frameN p n) (resumeFrame p)

/-- The fibonacci producer: locals a = 0, b = 1 live at the single co_yield
inside while (true); each resume yields a and then runs swap(a, b); b += a,
so the state (a, b) becomes (b, a + b). -/
def fibonacci : Producer (Int × Int) Int :=
  ⟨(0, 1), fun s => .yielded s.1 (s.2, s.1 + s.2)⟩

/-- The range producer: for (int i = start; i < end; i += step) co_yield i.
The saved local is the loop variable i; each resume tests i < end, yields i
and steps to i + step, or completes. The step argument defaults to 1 as in
the source. -/
def range (start stop : Int) (step : Int := 1) : Producer Int Int :=
  ⟨start, fun i => if i < stop then .yielded i (i + step) else .completed⟩

/-- Binary tree with possibly null children, modelling TreeNode with its
unique_ptr left and right members; nil models a null pointer. -/
inductive TreeNode where
  | nil : TreeNode
  | node (value : Int) (left right : TreeNode) : TreeNode
deriving DecidableEq, Repr

/-- The sequence of values the inorder coroutine body yields on a tree: all
values of the left child generator, then the node value, then all values of
the right child generator (the if (node->left) and if (node->right) guards
only skip child generators that would yield nothing anyway). -/
def inorderSeq : TreeNode → List Int
  | .nil => []
  | .node v l r => inorderSeq l ++ [v] ++ inorderSeq r

/-- The inorder producer. The source composes child generators recursively;
observably the nested for loops over child generators yield exactly the
concatenated inorder sequence one value per resume, so the frame state is
flattened to the remaining portion of that sequence (the specification
design notes explicitly allow this flattening, which changes only stack
depth, never the values or their order). -/
def inorder (t : TreeNode) : Producer (List Int) Int :=
  ⟨inorderSeq t, fun l =>
    match l with
    | [] => .completed
    | v :: rest => .yielded v rest⟩

/-- The seven-node tree built by testTreeTraversal:
4 with left subtree 2 (children 1, 3) and right subtree 6 (children 5, 7). -/
def testTree : TreeNode :=
  .node 4 (.node 2 (.node 1 .nil .nil) (.node 3 .nil .nil))
          (.node 6 (.node 5 .nil .nil) (.node 7 .nil .nil))

/-- C1: iterating range(1, 6) through the begin/end adapter yields exactly
1, 2, 3, 4, 5 in that order and then the iteration reports completion (the
loop exits through the sentinel test, not through fuel exhaustion). -/
theorem range_one_six_yields_exactly :
    runGen (range 1 6) 10 = .ok ([1, 2, 3, 4, 5], true) := by
  rfl

/-- C5: the fibonacci producer yields exactly 0, 1, 1, 2, 3, 5, 8, 13, 21, 34
as its first ten values (the loop stops on fuel, never on completion), and in
fact no number of resumes can ever drive the fibonacci frame to completion;
throughout, the frame consists of the same fixed pair of int locals, so memory
does not grow with the number of values consumed. -/
theorem fibonacci_first_ten :
    runGen fibonacci 10 = .ok ([0, 1, 1, 2, 3, 5, 8, 13, 21, 34], false)
    ∧ ∀ n : Nat, ∃ f : Frame (Int × Int) Int,
        frameN fibonacci n = .ok f ∧ f.atFinal = false := by
  refine ⟨by rfl, ?_⟩
  intro n
  induction n with
  | zero => exact ⟨initialFrame fibonacci, rfl, rfl⟩
  | succ n ih =>
      obtain ⟨f, hf, hfin⟩ := ih
      refine ⟨⟨(f.locals.2, f.locals.1 + f.locals.2), some f.locals.1, f.finished, false⟩, ?_, rfl⟩
      have hstep : fibonacci.step f.locals =
          .yielded f.locals.1 (f.locals.2, f.locals.1 + f.locals.2) := rfl
      simp [frameN, hf, bindCOut, resumeFrame, hfin, hstep]

/-- C6: iterating the inorder traversal producer over the tree
4 with children (2 with children (1, 3), 6 with children (5, 7)) yields
exactly 1, 2, 3, 4, 5, 6, 7 in order and then completes. -/
theorem inorder_test_tree_yields :
    runGen (inorder testTree) 10 = .ok ([1, 2, 3, 4, 5, 6, 7], true) := by
  rfl

/-- C4: creating a Generator runs no producer code. The Generator built by
invoking a producer depends only on the initial locals, never on the body
(two producers with the same initial locals but different bodies give equal
Generators); the created frame holds the untouched initial locals, no yielded
value and no completion; and the first body code runs only inside begin, as
witnessed on fibonacci: begin performs the first resume and only then does
the first yielded value 0 appear. -/
theorem generator_creation_is_lazy :
    (∀ (σ T : Type) (p q : Producer σ T), p.init = q.init →
        makeGenerator p = makeGenerator q)
    ∧ (∀ (σ T : Type) (p : Producer σ T),
        makeGenerator p = ⟨some ⟨p.init, none, false, false⟩⟩)
    ∧ beginGen fibonacci (makeGenerator fibonacci) =
        .ok (some ⟨(1, 1), some 0, false, false⟩) := by
  refine ⟨?_, ?_, by rfl⟩
  · intro σ T p q h
    simp [makeGenerator, initialFrame, h]
  · intro σ T p
    rfl

/-- Witness for C4 at concrete producers: fibonacci and a body-less producer
sharing the initial locals (0, 1) create equal Generators. -/
theorem generator_creation_is_lazy_witness :
    makeGenerator fibonacci = makeGenerator ⟨(0, 1), fun _ => StepOut.completed⟩ :=
  generator_creation_is_lazy.1 _ _ fibonacci ⟨(0, 1), fun _ => StepOut.completed⟩ rfl

/-- C9: move construction transfers the frame and leaves the source with a
null handle whose destructor releases nothing, and the frame owned before the
move is destroyed exactly once in total across both objects; move assignment
destroys only the frame the destination previously owned, takes the source
frame and empties the source; self move assignment is a no-op that destroys
nothing; the destructor of an empty Generator performs no destruction. -/
theorem move_semantics_ownership :
    ∀ (σ T : Type) (g h : Generator σ T),
      moveCtor g = (⟨g.coro⟩, ⟨none⟩)
      ∧ destroyCount (moveCtor g).2 = 0
      ∧ destroyCount (moveCtor g).1 + destroyCount (moveCtor g).2 = destroyCount g
      ∧ moveAssign h g = (⟨g.coro⟩, ⟨none⟩, destroyCount h)
      ∧ destroyCount (moveAssign h g).2.1 = 0
      ∧ moveAssignSelf g = (g, 0)
      ∧ destroyCount (⟨none⟩ : Generator σ T) = 0 := by
  intro σ T g h
  refine ⟨rfl, rfl, ?_, rfl, rfl, rfl, rfl⟩
  simp [moveCtor, destroyCount]

/-- C2 counterexample: driving range(1, 6) through six resumes completes the
frame (atFinal is true), yet dereferencing through the adapter is a defined
read that silently returns the stale last yielded value 5 instead of failing
loudly. -/
theorem deref_after_completion_returns_stale :
    frameN (range 1 6) 6 = .ok ⟨6, some 5, true, true⟩
    ∧ iterDeref (some (⟨6, some 5, true, true⟩ : Frame Int Int)) = .ok (some 5) :=
  ⟨by rfl, by rfl⟩

/-- C2 amended: Iterator.operator* performs no completion check; on every
frame, completed or not, it is a defined read returning exactly the stored
promise value, so after completion it silently returns the stale last yielded
value rather than failing. -/
theorem deref_is_unchecked_read :
    ∀ (σ T : Type) (f : Frame σ T), f.atFinal = true →
      iterDeref (some f) = .ok f.value := by
  intro σ T f _
  rfl

/-- Witness for the amended C2 on the concrete completed frame of
range(1, 6). -/
theorem deref_is_unchecked_read_witness :
    iterDeref (some (⟨6, some 5, true, true⟩ : Frame Int Int)) = .ok (some 5) :=
  deref_is_unchecked_read Int Int ⟨6, some 5, true, true⟩ rfl

/-- C3 counterexample: on the completed frame reached by driving range(1, 6)
to its end, the adapter advance resumes a coroutine suspended at its final
suspend point: the outcome is undefined behavior, not a defined no-op that
leaves the frame completed. -/
theorem advance_after_completion_is_undefined :
    frameN (range 1 6) 6 = .ok ⟨6, some 5, true, true⟩
    ∧ iterInc (range 1 6) (some ⟨6, some 5, true, true⟩) = .ub
    ∧ iterInc (range 1 6) (some ⟨6, some 5, true, true⟩) ≠
        .ok (some ⟨6, some 5, true, true⟩) :=
  ⟨by rfl, by rfl, by decide⟩

/-- C3 amended: Iterator.operator++ performs an unguarded resume, and resuming
an already-completed frame is undefined behavior rather than a reported
no-op; the completion test of the adapter, however, correctly reports
completion, so a loop that checks the sentinel before advancing never resumes
a completed frame. -/
theorem advance_unguarded_resume :
    ∀ (σ T : Type) (p : Producer σ T) (f : Frame σ T), f.atFinal = true →
      resumeFrame p f = .ub ∧ iterNe (some f) = .ok false := by
  intro σ T p f h
  exact ⟨by simp [resumeFrame, h], by simp [iterNe, h]⟩

/-- Witness for the amended C3 on the concrete completed frame of
range(1, 6). -/
theorem advance_unguarded_resume_witness :
    resumeFrame (range 1 6) (⟨6, some 5, true, true⟩ : Frame Int Int) = .ub
    ∧ iterNe (some (⟨6, some 5, true, true⟩ : Frame Int Int)) = .ok false :=
  advance_unguarded_resume Int Int (range 1 6) ⟨6, some 5, true, true⟩ rfl

/-- C7 counterexample: range(5, 5) completes without yielding, so begin hands
out the Iterator holding a null handle; the very first sentinel comparison of
the loop then calls done() on that null handle, which is undefined behavior,
not a no-op or an explicit failure — the whole test loop evaluates to ub. -/
theorem null_iterator_operations_undefined :
    beginGen (range 5 5) (makeGenerator (range 5 5)) = .ok none
    ∧ iterNe (none : Iterator Int Int) = .ub
    ∧ runGen (range 5 5) 3 = .ub :=
  ⟨by rfl, by rfl, by rfl⟩

/-- C7 amended: on an empty handle the Generator level operations are indeed
safe no-ops (the destructor destroys nothing, self move assignment changes
nothing), but begin on an empty Generator and every Iterator operation on a
null handle (sentinel comparison, advance, dereference) call done, resume or
promise on a null coroutine handle: undefined behavior, not a guarded no-op
or explicit failure. -/
theorem empty_handle_operations :
    ∀ (σ T : Type) (p : Producer σ T),
      destroyCount (⟨none⟩ : Generator σ T) = 0
      ∧ moveAssignSelf (⟨none⟩ : Generator σ T) = (⟨none⟩, 0)
      ∧ beginGen p ⟨none⟩ = .ub
      ∧ iterNe (none : Iterator σ T) = .ub
      ∧ iterInc p (none : Iterator σ T) = .ub
      ∧ iterDeref (none : Iterator σ T) = .ub := by
  intro σ T p
  exact ⟨rfl, rfl, rfl, rfl, rfl, rfl⟩

/-- C8 counterexample: a producer whose body raises on its first resume. The
resume does not come back with the error delivered and a completed,
destroyable frame: promise_type.unhandled_exception calls std.terminate and
the whole program aborts, as both the single resume and the driving loop
show. -/
theorem producer_error_terminates_program :
    resumeFrame (⟨(), fun _ => .raised⟩ : Producer Unit Int)
        (initialFrame (⟨(), fun _ => .raised⟩ : Producer Unit Int)) = .aborted
    ∧ runGen (⟨(), fun _ => .raised⟩ : Producer Unit Int) 3 = .aborted :=
  ⟨by rfl, by rfl⟩

/-- C8 amended: whenever the producer body raises during a resume of a live
frame, unhandled_exception runs std.terminate: the outcome of that resume is
whole-program abort; the error is not surfaced to the resuming caller as a
catchable condition and no frame survives for later destruction. -/
theorem producer_error_aborts :
    ∀ (σ T : Type) (p : Producer σ T) (f : Frame σ T),
      f.atFinal = false → p.step f.locals = .raised →
      resumeFrame p f = .aborted := by
  intro σ T p f h hs
  simp [resumeFrame, h, hs]

/-- Witness for the amended C8 on the concrete raising producer. -/
theorem producer_error_aborts_witness :
    resumeFrame (⟨(), fun _ => .raised⟩ : Producer Unit Int)
        (initialFrame (⟨(), fun _ => .raised⟩ : Producer Unit Int)) = .aborted :=
  producer_error_aborts Unit Int ⟨(), fun _ => .raised⟩
    (initialFrame (⟨(), fun _ => .raised⟩ : Producer Unit Int)) rfl rfl

/-- Helper: the product of a natural number cast to Int with a nonpositive
step is nonpositive. -/
lemma cast_mul_nonpos (k : Nat) (st : Int) (h : st ≤ 0) : (k : Int) * st ≤ 0 :=
  mul_nonpos_iff.mpr (Or.inl ⟨Nat.cast_nonneg k, h⟩)

/-- Helper: as long as every loop state tested so far was below the bound,
n + 1 resumes of a range generator leave a live frame whose local is
start + (n + 1) * step and whose promise holds the value start + n * step. -/
lemma range_alive (s e st : Int) :
    ∀ n : Nat, (∀ k : Nat, k ≤ n → s + (k : Int) * st < e) →
      frameN (range s e st) (n + 1) =
        .ok ⟨s + ((n : Int) + 1) * st, some (s + (n : Int) * st), false, false⟩ := by
  intro n
  induction n with
  | zero =>
      intro h
      have h0 : s < e := by simpa using h 0 (Nat.le_refl 0)
      show bindCOut (frameN (range s e st) 0) (resumeFrame (range s e st)) = _
      simp [frameN, bindCOut, initialFrame, resumeFrame, range, h0]
  | succ n ih =>
      intro h
      have hprev : ∀ k : Nat, k ≤ n → s + (k : Int) * st < e :=
        fun k hk => h k (Nat.le_succ_of_le hk)
      have hn1 : s + ((n : Int) + 1) * st < e := by
        have hh := h (n + 1) (Nat.le_refl _)
        push_cast at hh
        exact hh
      show bindCOut (frameN (range s e st) (n + 1)) (resumeFrame (range s e st)) = _
      rw [ih hprev]
      simp only [bindCOut, resumeFrame, range]
      rw [if_neg (by simp), if_pos hn1]
      push_cast
      simp only [COut.ok.injEq, Frame.mk.injEq]
      refine ⟨by ring, ?_, ?_, ?_⟩ <;> trivial

/-- Helper: when the loop test first fails at iteration n, resume number n + 1
completes the frame. -/
lemma range_done (s e st : Int) (n : Nat)
    (h1 : ∀ k : Nat, k < n → s + (k : Int) * st < e)
    (h2 : e ≤ s + (n : Int) * st) :
    ∃ f : Frame Int Int,
      frameN (range s e st) (n + 1) = .ok f ∧ f.atFinal = true := by
  cases n with
  | zero =>
      have hs : ¬ (s < e) := not_lt.mpr (by simpa using h2)
      refine ⟨⟨s, none, true, true⟩, ?_, rfl⟩
      show bindCOut (frameN (range s e st) 0) (resumeFrame (range s e st)) = _
      simp [frameN, bindCOut, initialFrame, resumeFrame, range, hs]
  | succ m =>
      have hm : ∀ k : Nat, k ≤ m → s + (k : Int) * st < e :=
        fun k hk => h1 k (Nat.lt_succ_of_le hk)
      have hge : ¬ (s + ((m : Int) + 1) * st < e) := by
        refine not_lt.mpr ?_
        have hh := h2
        push_cast at hh
        exact hh
      refine ⟨⟨s + ((m : Int) + 1) * st, some (s + (m : Int) * st), true, true⟩, ?_, rfl⟩
      show bindCOut (frameN (range s e st) (m + 1)) (resumeFrame (range s e st)) = _
      rw [range_alive s e st m hm]
      simp only [bindCOut, resumeFrame, range]
      rw [if_neg (by simp), if_neg hge]

/-- Helper: with a nonpositive step and start below the bound, no number of
resumes ever completes the range frame. -/
lemma range_never_done (s e st : Int) (hst : st ≤ 0) (hse : s < e) :
    ∀ (n : Nat) (f : Frame Int Int),
      frameN (range s e st) n = .ok f → f.atFinal = false := by
  have hall : ∀ k : Nat, s + (k : Int) * st < e := by
    intro k
    have hk := cast_mul_nonpos k st hst
    linarith
  intro n
  cases n with
  | zero =>
      intro f hf
      simp only [frameN, COut.ok.injEq] at hf
      rw [← hf]
      rfl
  | succ m =>
      intro f hf
      rw [range_alive s e st m (fun k _ => hall k)] at hf
      simp only [COut.ok.injEq] at hf
      rw [← hf]

/-- Helper: with a positive step, or with start already at or past the bound,
the range frame reaches completion after finitely many resumes. -/
lemma range_terminating (s e st : Int) (h : 0 < st ∨ e ≤ s) :
    ∃ (n : Nat) (f : Frame Int Int),
      frameN (range s e st) n = .ok f ∧ f.atFinal = true := by
  by_cases hes : e ≤ s
  · obtain ⟨f, hf, hfin⟩ :=
      range_done s e st 0 (fun k hk => absurd hk (Nat.not_lt_zero k)) (by simpa using hes)
    exact ⟨1, f, hf, hfin⟩
  · have hst : 0 < st := h.resolve_right hes
    have hex : ∃ n : Nat, e ≤ s + (n : Int) * st := by
      refine ⟨(e - s).toNat, ?_⟩
      have h1 : e - s ≤ ((e - s).toNat : Int) := Int.self_le_toNat _
      have h2 : ((e - s).toNat : Int) ≤ ((e - s).toNat : Int) * st :=
        le_mul_of_one_le_right (Nat.cast_nonneg _) hst
      linarith
    obtain ⟨f, hf, hfin⟩ :=
      range_done s e st (Nat.find hex)
        (fun k hk => not_le.mp (Nat.find_min hex hk)) (Nat.find_spec hex)
    exact ⟨Nat.find hex + 1, f, hf, hfin⟩

/-- The range generator reaches a completed frame after some number of
resumes. -/
def rangeTerminates (s e st : Int) : Prop :=
  ∃ (n : Nat) (f : Frame Int Int),
    frameN (range s e st) n = .ok f ∧ f.atFinal = true

/-- C10: the sequence produced by range(start, end, step) is finite exactly
when step is positive or start is already at or past end; with start below
end and step zero, every resume leaves a live frame holding the value start,
so the generator yields start indefinitely and never completes; with start
below end and a negative step, every resume leaves a live frame whose values
start + n * step decrease strictly and the generator never completes. -/
theorem range_termination_characterization :
    ∀ s e st : Int,
      (rangeTerminates s e st ↔ (0 < st ∨ e ≤ s))
      ∧ (st = 0 → s < e → ∀ n : Nat,
          frameN (range s e st) (n + 1) = .ok ⟨s, some s, false, false⟩)
      ∧ (st < 0 → s < e → ∀ n : Nat,
          frameN (range s e st) (n + 1) =
            .ok ⟨s + ((n : Int) + 1) * st, some (s + (n : Int) * st), false, false⟩
          ∧ s + ((n : Int) + 1) * st < s + (n : Int) * st) := by
  intro s e st
  refine ⟨⟨?_, range_terminating s e st⟩, ?_, ?_⟩
  · rintro ⟨n, f, hf, hfin⟩
    by_contra hcon
    push_neg at hcon
    obtain ⟨hst, hse⟩ := hcon
    have := range_never_done s e st hst hse n f hf
    rw [this] at hfin
    exact Bool.false_ne_true hfin
  · intro hst hse n
    subst hst
    have halive := range_alive s e 0 n (fun k _ => by simpa using hse)
    simpa using halive
  · intro hst hse n
    refine ⟨range_alive s e st n (fun k _ => ?_), ?_⟩
    · have hk := cast_mul_nonpos k st (le_of_lt hst)
      linarith
    · have hexp : ((n : Int) + 1) * st = (n : Int) * st + st := by ring
      rw [hexp]
      linarith

/-- Witness for C10 at concrete parameters: range(1, 6, 1) terminates,
range(0, 5, 0) still holds the value 0 after three resumes without
completing, and range(0, 5, -1) holds the strictly smaller value -1 after
two resumes without completing. -/
theorem range_termination_characterization_witness :
    rangeTerminates 1 6 1
    ∧ frameN (range 0 5 0) 3 = .ok ⟨0, some 0, false, false⟩
    ∧ frameN (range 0 5 (-1)) 2 =
        .ok ⟨0 + ((1 : Int) + 1) * (-1), some (0 + (1 : Int) * (-1)), false, false⟩ := by
  refine ⟨(range_termination_characterization 1 6 1).1.mpr (Or.inl (by norm_num)),
          (range_termination_characterization 0 5 0).2.1 rfl (by norm_num) 2,
          ?_⟩
  have h := ((range_termination_characterization 0 5 (-1)).2.2 (by norm_num) (by norm_num) 1).1
  simpa using h
